import Mathlib

/-!
Shallow embedding of the hfendpoint whisper transcription core:
audio chunking, prompt construction, the timestamp segment decoder,
transcript assembly, the load monitor broadcast channel, and the
cancellation path of the request orchestrator.

Sources embedded:
* `src/hfendpoint/audio/__init__.py` (`chunk_audio_with_duration`)
* `src/hfendpoint/handlers/openai/utils.py` (`compression_ratio`)
* `src/hfendpoint/handlers/monitor.py` (`EngineMonitor`)
* `examples/whisper/transcribe.py` (`process_chunk`, `process_chunks`,
  `create_prompt`, `WhisperEndpoint.__call__`, `_handle_inference_stream`)
* `catalog/vllm/whisper/endpoint.py` (`process_chunk` with offsets and
  logprobs, `get_avg_logprob`)

Numerics: Python floats are modelled as `ℚ`; token ids as `ℕ`.
-/

namespace HfEndpoint

/-- `np.split(a, n)`: split `a` into `n` equal sections (the callers only
use it when `a.length` is divisible by `n`). -/
def npSplit (a : List ℚ) (n : Nat) : List (List ℚ) :=
  (List.range n).map (fun i => ((a.drop (i * (a.length / n))).take (a.length / n)))

/-- `hfendpoint.audio.chunk_audio_with_duration` (identical copy in
`catalog/vllm/whisper/endpoint.py`):
`max_duration_samples = sampling_rate * maximum_duration_sec`;
`padding = max_duration_samples - np.remainder(len(audio), max_duration_samples)`;
right-pad with zeros and `np.split` into `len // max_duration_samples` chunks. -/
def chunk_audio_with_duration (audio : List ℚ) (maximumDurationSec samplingRate : Nat) :
    List (List ℚ) :=
  let maxDurationSamples := samplingRate * maximumDurationSec
  let padding := maxDurationSamples - audio.length % maxDurationSamples
  let padded := audio ++ List.replicate padding 0
  npSplit padded (padded.length / maxDurationSamples)

/-- Adler-32 checksum of a byte list, returned as the 4 trailer bytes of a
zlib stream (big-endian), per RFC 1950. -/
def adler32 (b : List Nat) : List Nat :=
  let s := b.foldl (fun (p : Nat × Nat) x =>
    let a := (p.1 + x) % 65521
    (a, (p.2 + a) % 65521)) (1, 0)
  let word := s.2 * 65536 + s.1
  [word / 16777216 % 256, word / 65536 % 256, word / 256 % 256, word % 256]

/-- Model of the external `zlib.compress` (RFC 1950 framing): a 2-byte
header, the DEFLATE payload — abstracted as the parameter `deflate`, since
its exact bytes never matter to this codebase — and the 4-byte Adler-32
trailer. Every zlib stream therefore has at least 6 bytes. -/
def zlibCompress (deflate : List Nat → List Nat) (b : List Nat) : List Nat :=
  0x78 :: 0x9c :: (deflate b ++ adler32 b)

/-- UTF-8 encoding of a string as a byte list (`text.encode("utf-8")`). -/
def utf8Bytes (s : String) : List Nat :=
  (String.toUTF8 s).data.toList.map (fun b => b.toNat)

/-- `hfendpoint.handlers.openai.utils.compression_ratio` (identical copy in
`catalog/vllm/whisper/endpoint.py`):
`len(text_bytes) / len(zlib.compress(text_bytes))`.  A `none` result models
the `ZeroDivisionError` Python would raise on a zero-length compressed
stream. -/
def compression_ratio (deflate : List Nat → List Nat) (text : String) : Option ℚ :=
  let textBytes := utf8Bytes text
  let compressed := zlibCompress deflate textBytes
  if compressed.length = 0 then none
  else some ((textBytes.length : ℚ) / (compressed.length : ℚ))

/-- The tokenizer facts and external helpers the decoder consumes.
`timestampBegin` is `tokenizer.convert_tokens_to_ids("<|0.00|>")`;
`timestampValue id` is `float(tokenizer.convert_ids_to_tokens([id])[0][2:-2])`
(the bracketed two-decimal seconds value printed by a timestamp token);
`decode` is `tokenizer.decode(ids)`; `decodeSkipSpecial` is
`tokenizer.decode(ids, skip_special_tokens=True, clean_up_tokenization_spaces=True)`;
`deflate` is the DEFLATE payload of `zlib.compress` (see `zlibCompress`). -/
structure Env where
  timestampBegin : Nat
  timestampValue : Nat → ℚ
  decode : List Nat → String
  decodeSkipSpecial : List Nat → String
  deflate : List Nat → List Nat

/-- `np.flatnonzero(ids >= k_timestamp_token)`: the positions of the
timestamp tokens, in increasing order. -/
def timestampPositions (timestampBegin : Nat) (ids : List Nat) : List Nat :=
  (List.range ids.length).filter (fun i => timestampBegin ≤ ids.getD i 0)

/-- `np.array_equal(timestamps_mask[-2:], [False, True])`: the chunk ends
with exactly one trailing timestamp token preceded by a text token. -/
def isSingleEndingTimestamp (timestampBegin : Nat) (ids : List Nat) : Bool :=
  let mask := ids.map (fun i => decide (timestampBegin ≤ i))
  mask.drop (mask.length - 2) == [false, true]

/-- The `Segment` pydantic model of
`hfendpoint/handlers/openai/audio/transcriptions.py` (the catalog
`SegmentBuilder` populates the same fields minus `seek`/`no_speech_prob`).
`stop` embeds the source field `end` (a Lean keyword). -/
structure SegmentE where
  id : Nat
  seek : Nat
  start : ℚ
  stop : ℚ
  text : String
  tokens : List Nat
  temperature : ℚ
  avg_logprob : Option ℚ
  compression_ratio : Option ℚ
  no_speech_prob : Option ℚ
deriving Repr, DecidableEq

/-- The loop body of `examples/whisper/transcribe.py::process_chunk`: scan
the enumerated timestamp positions carrying the state
`(t, timestamp_start, slice_start)`.  An even-indexed occurrence emits a
segment closing at this timestamp; an odd-indexed one records the pending
start time. -/
def segmentScan (env : Env) (ids : List Nat) (temp : ℚ) :
    List Nat → Nat → ℚ → Nat → List SegmentE
  | [], _, _, _ => []
  | pos :: rest, t, timestampStart, sliceStart =>
    let timestamp := env.timestampValue (ids.getD pos 0)
    if t % 2 = 0 then
      let segmentIds := (ids.drop sliceStart).take (pos - sliceStart)
      let segmentText := env.decode segmentIds
      { id := t, seek := 0, start := timestampStart, stop := timestamp,
        text := segmentText, tokens := segmentIds, temperature := temp,
        avg_logprob := none,
        compression_ratio := compression_ratio env.deflate segmentText,
        no_speech_prob := none } :: segmentScan env ids temp rest (t + 1) timestampStart pos
    else
      segmentScan env ids temp rest (t + 1) timestamp sliceStart

/-- `examples/whisper/transcribe.py::process_chunk`: if no token id is
`≥ timestampBegin` the generator yields nothing; otherwise every yield
pairs the segment with the constant `is_single_ending_timestamp` flag. -/
def process_chunk (env : Env) (ids : List Nat) (temp : ℚ) : List (SegmentE × Bool) :=
  let positions := timestampPositions env.timestampBegin ids
  if positions.isEmpty then []
  else
    (segmentScan env ids temp positions 0 0 0).map
      (fun s => (s, isSingleEndingTimestamp env.timestampBegin ids))

/-- `catalog/vllm/whisper/endpoint.py::get_avg_logprob`: the mean of the
chosen-token log-probability over every decoding step of the window
(`logprobs` is modelled as that per-step list). -/
def get_avg_logprob (logprobs : List ℚ) : ℚ :=
  logprobs.sum / (logprobs.length : ℚ)

/-- The loop body of `catalog/vllm/whisper/endpoint.py::process_chunk`:
same scan as `segmentScan`, except the id is rebased by `segmentOffset`,
both times are shifted by `timestampOffset`, and `avg_logprob` is
`get_avg_logprob` of the whole window's logprobs. -/
def segmentScanV (env : Env) (ids : List Nat) (logprobs : List ℚ) (temp : ℚ)
    (segmentOffset : Nat) (timestampOffset : ℚ) :
    List Nat → Nat → ℚ → Nat → List SegmentE
  | [], _, _, _ => []
  | pos :: rest, t, timestampStart, sliceStart =>
    let timestamp := env.timestampValue (ids.getD pos 0)
    if t % 2 = 0 then
      let segmentIds := (ids.drop sliceStart).take (pos - sliceStart)
      let segmentText := env.decode segmentIds
      { id := segmentOffset + t, seek := 0,
        start := timestampOffset + timestampStart,
        stop := timestampOffset + timestamp,
        text := segmentText, tokens := segmentIds, temperature := temp,
        avg_logprob := some (get_avg_logprob logprobs),
        compression_ratio := compression_ratio env.deflate segmentText,
        no_speech_prob := none } ::
        segmentScanV env ids logprobs temp segmentOffset timestampOffset rest
          (t + 1) timestampStart pos
    else
      segmentScanV env ids logprobs temp segmentOffset timestampOffset rest
        (t + 1) timestamp sliceStart

/-- `catalog/vllm/whisper/endpoint.py::process_chunk`. -/
def process_chunk_v (env : Env) (ids : List Nat) (logprobs : List ℚ) (temp : ℚ)
    (segmentOffset : Nat) (timestampOffset : ℚ) : List (SegmentE × Bool) :=
  let positions := timestampPositions env.timestampBegin ids
  if positions.isEmpty then []
  else
    (segmentScanV env ids logprobs temp segmentOffset timestampOffset positions 0 0 0).map
      (fun s => (s, isSingleEndingTimestamp env.timestampBegin ids))

/-- `WHISPER_SEGMENT_DURATION_SEC` (both whisper endpoints). -/
def WHISPER_SEGMENT_DURATION_SEC : Nat := 30

/-- `examples/whisper/transcribe.py::process_chunks`: each chunk (the final
token id list of one window) is decoded with `process_chunk`, its segments
rebased in place (`id += segment_offset`, `start/end += time_offset`) and
appended; the full token accumulation is decoded once with
`skip_special_tokens` for the final text. -/
def process_chunks (env : Env) (chunks : List (List Nat)) (temp : ℚ) :
    List SegmentE × String :=
  let acc := chunks.enum.foldl
    (fun (acc : List SegmentE × List Nat) (p : Nat × List Nat) =>
      let timeOffset : ℚ := (p.1 : ℚ) * (WHISPER_SEGMENT_DURATION_SEC : ℚ)
      let segmentOffset := acc.1.length
      let segs := (process_chunk env p.2 temp).map (fun sb =>
        { sb.1 with
            id := sb.1.id + segmentOffset,
            start := sb.1.start + timeOffset,
            stop := sb.1.stop + timeOffset })
      (acc.1 ++ segs, acc.2 ++ p.2))
    ([], [])
  (acc.1, env.decodeSkipSpecial acc.2)

/-- The prompt dictionary built by `create_prompt` (both whisper
endpoints): an encoder side carrying the raw audio with its sampling rate
and a decoder side carrying the fixed preamble token ids. -/
structure Prompt where
  encoderAudio : List ℚ
  encoderSamplingRate : Nat
  decoderPromptTokenIds : List Nat
deriving Repr, DecidableEq

/-- `create_prompt` of `examples/whisper/transcribe.py` and
`catalog/vllm/whisper/endpoint.py` (`isVerbose` embeds
`request.response_format == ResponseFormat.VERBOSE_JSON` resp.
`is_verbose_response`).  The marker string `k_timestamp_marker` is
computed from `timestampMarker` in the source but never used: the decoder
preamble always ends with the literal token id `50365` (`<|0.00|>`). -/
def create_prompt (audio : List ℚ) (samplingRate : Nat) (timestampMarker : Nat)
    (isVerbose : Bool) : Prompt :=
  let kEnglishToken : Nat := 50259
  let _kTimestampMarkerValue : Nat := if isVerbose then timestampMarker else 0
  let kTimestampMarkerToken : Nat := 50365
  { encoderAudio := audio,
    encoderSamplingRate := samplingRate,
    decoderPromptTokenIds := [50258, kEnglishToken, 50360, kTimestampMarkerToken] }

/-- `MonitoringStats` of `hfendpoint/handlers/monitor.py`. -/
structure MonitoringStats where
  in_flight : Nat
  in_queue : Nat
  max_in_flight : Nat
deriving Repr, DecidableEq

/-- The mutable state of `EngineMonitor`: `_current` and the
`asyncio.LifoQueue(1)` broadcast buffer (`put` appends on the right,
`get`/`get_nowait` remove from the right). -/
structure MonitorState where
  current : MonitoringStats
  queue : List MonitoringStats
deriving Repr, DecidableEq

/-- `EngineMonitor.__init__`: zeroed current sample, empty buffer. -/
def monitorInit : MonitorState :=
  { current := { in_flight := 0, in_queue := 0, max_in_flight := 0 }, queue := [] }

/-- `EngineMonitor.broadcast`: set `_current`, then if the capacity-1
queue is full drop the buffered sample (`get_nowait`), then `put` the new
one. -/
def broadcast (message : MonitoringStats) (st : MonitorState) : MonitorState :=
  let st1 : MonitorState := { st with current := message }
  let purged := if 1 ≤ st1.queue.length then st1.queue.dropLast else st1.queue
  { st1 with queue := purged ++ [message] }

/-- The samples `EngineMonitor.recv` yields to a subscriber before it has
to wait on a further publish: `_current` first, then the buffer drained in
LIFO order. -/
def recvObservations (st : MonitorState) : List MonitoringStats :=
  st.current :: st.queue.reverse

/-- One step of an engine output stream, as consumed by
`_handle_inference_stream`: vLLM yields `RequestOutput` values carrying
the sub-request id they answer. -/
structure StreamStep where
  request_id : String
deriving Repr, DecidableEq

/-- The engine `cancel` calls issued by the loop of
`examples/whisper/transcribe.py::WhisperEndpoint._handle_inference_stream`:
at each step, if `is_cancelled.cancel_called` holds (sampled as
`cancelCalled i` at the i-th step), `self._engine.cancel(step.request_id)`
is awaited. -/
def streamCancels (cancelCalled : Nat → Bool) : List StreamStep → Nat → List String
  | [], _ => []
  | step :: rest, i =>
    if cancelCalled i then
      step.request_id :: streamCancels cancelCalled rest (i + 1)
    else
      streamCancels cancelCalled rest (i + 1)

/-- Outcome of `WhisperEndpoint.__call__`: a transcript body
(`Transcription`/`VerboseTranscription`) or the explicit
`Response(status_code=204)`. -/
inductive CallResult where
  | transcript
  | noContent
deriving Repr, DecidableEq

/-- The response control flow of
`examples/whisper/transcribe.py::WhisperEndpoint.__call__`: the whole body
sits under `if len(request.file):`; after gathering the streams, a
transcript is built and returned only when `is_cancelled.cancel_called` is
false, otherwise the trailing `Response(204)` is reached.  When the file
is empty the `if` body is skipped and the function implicitly returns
Python `None`, modelled as `Option.none`. -/
def whisperCall (fileLen : Nat) (cancelCalled : Bool) : Option CallResult :=
  if fileLen ≠ 0 then
    if cancelCalled = false then some CallResult.transcript
    else some CallResult.noContent
  else none

/-- Concrete `Env` instantiating the Whisper large-v3 tokenizer facts the
source hard-codes (`convert_tokens_to_ids("<|0.00|>") = 50365`, token
`50365 + k` printing the time `k / 50` seconds), with trivial text
decoding and DEFLATE payloads (neither affects timestamps, ids or
counts). -/
def testEnv : Env :=
  { timestampBegin := 50365,
    timestampValue := fun id => ((id : ℚ) - 50365) / 50,
    decode := fun _ => "",
    decodeSkipSpecial := fun _ => "",
    deflate := fun _ => [] }

/-- Stated from the spec (§4.3/claims): the (start, end) pairs the decoder
must emit, given the window time offset, the pending start time and the
ordered list of decoded timestamp values.  An even-indexed value closes a
segment at that value; an odd-indexed one only becomes the next pending
start. -/
def claimSegmentTimes (off : ℚ) : ℚ → List ℚ → List (ℚ × ℚ)
  | _, [] => []
  | pending, [v] => [(off + pending, off + v)]
  | pending, v0 :: v1 :: rest => (off + pending, off + v0) :: claimSegmentTimes off v1 rest

/-- The catalog scan, projected to (start, end) times, computes the
even/odd emission discipline of `claimSegmentTimes`; when entered at an
odd occurrence index the head value only replaces the pending start. -/
lemma segmentScanV_map_times (env : Env) (ids : List Nat) (lps : List ℚ) (temp : ℚ)
    (so : Nat) (toff : ℚ) :
    ∀ (ps : List Nat) (t : Nat) (pending : ℚ) (ss : Nat),
      (segmentScanV env ids lps temp so toff ps t pending ss).map (fun s => (s.start, s.stop))
        = if t % 2 = 0 then
            claimSegmentTimes toff pending (ps.map (fun p => env.timestampValue (ids.getD p 0)))
          else
            match ps with
            | [] => []
            | p :: rest =>
                claimSegmentTimes toff (env.timestampValue (ids.getD p 0))
                  (rest.map (fun q => env.timestampValue (ids.getD q 0))) := by
  intro ps
  induction ps with
  | nil =>
    intro t pending ss
    by_cases h : t % 2 = 0 <;> simp [segmentScanV, claimSegmentTimes, h]
  | cons p rest ih =>
    intro t pending ss
    by_cases h : t % 2 = 0
    · have h1 : ¬ (t + 1) % 2 = 0 := by omega
      rw [if_pos h]
      simp only [segmentScanV, if_pos h, List.map_cons]
      rw [ih (t + 1) pending p, if_neg h1]
      cases rest with
      | nil => simp [claimSegmentTimes]
      | cons p1 r2 => simp [claimSegmentTimes]
    · have h1 : (t + 1) % 2 = 0 := by omega
      rw [if_neg h]
      simp only [segmentScanV, if_neg h]
      rw [ih (t + 1) (env.timestampValue (ids.getD p 0)) ss, if_pos h1]

/-- Same characterization for the examples scan (no window offsets). -/
lemma segmentScan_map_times (env : Env) (ids : List Nat) (temp : ℚ) :
    ∀ (ps : List Nat) (t : Nat) (pending : ℚ) (ss : Nat),
      (segmentScan env ids temp ps t pending ss).map (fun s => (s.start, s.stop))
        = if t % 2 = 0 then
            claimSegmentTimes 0 pending (ps.map (fun p => env.timestampValue (ids.getD p 0)))
          else
            match ps with
            | [] => []
            | p :: rest =>
                claimSegmentTimes 0 (env.timestampValue (ids.getD p 0))
                  (rest.map (fun q => env.timestampValue (ids.getD q 0))) := by
  intro ps
  induction ps with
  | nil =>
    intro t pending ss
    by_cases h : t % 2 = 0 <;> simp [segmentScan, claimSegmentTimes, h]
  | cons p rest ih =>
    intro t pending ss
    by_cases h : t % 2 = 0
    · have h1 : ¬ (t + 1) % 2 = 0 := by omega
      rw [if_pos h]
      simp only [segmentScan, if_pos h, List.map_cons]
      rw [ih (t + 1) pending p, if_neg h1]
      cases rest with
      | nil => simp [claimSegmentTimes]
      | cons p1 r2 => simp [claimSegmentTimes]
    · have h1 : (t + 1) % 2 = 0 := by omega
      rw [if_neg h]
      simp only [segmentScan, if_neg h]
      rw [ih (t + 1) (env.timestampValue (ids.getD p 0)) ss, if_pos h1]

/-- C1: contrary to the claim, for every waveform whose length is a
nonzero exact multiple of the window size `W = sample_rate × duration`,
`chunk_audio_with_duration` pads a further `W` zero samples (its padding
amount `W - L % W` equals `W` when `L % W = 0`) and returns `L / W + 1`
windows, not `L / W`. -/
theorem chunk_exact_multiple_adds_spurious_window (audio : List ℚ)
    (maximumDurationSec samplingRate : Nat)
    (hW : 0 < samplingRate * maximumDurationSec)
    (hmul : audio.length % (samplingRate * maximumDurationSec) = 0) :
    (chunk_audio_with_duration audio maximumDurationSec samplingRate).length
      = audio.length / (samplingRate * maximumDurationSec) + 1 := by
  unfold chunk_audio_with_duration npSplit
  simp only [hmul, Nat.sub_zero, List.length_map, List.length_range,
    List.length_append, List.length_replicate]
  exact Nat.add_div_right audio.length hW

/-- C1 witness: a 4-sample waveform with window size `2 × 2 = 4` (one
exact window) is split into 2 windows, the second being pure padding. -/
theorem chunk_exact_multiple_adds_spurious_window_witness :
    0 < 2 * 2 ∧ ([(1 : ℚ), 1, 1, 1].length % (2 * 2) = 0) ∧
      (chunk_audio_with_duration [(1 : ℚ), 1, 1, 1] 2 2).length = 2 ∧
      chunk_audio_with_duration [(1 : ℚ), 1, 1, 1] 2 2 = [[1, 1, 1, 1], [0, 0, 0, 0]] :=
  ⟨by decide, by decide,
    (chunk_exact_multiple_adds_spurious_window [(1 : ℚ), 1, 1, 1] 2 2
      (by decide) (by decide)).trans (by decide), by rfl⟩

/-- C2 counterexample: on the token pattern `[T0, text, T1, text, T2]`
(timestamp values 2.0, 4.0, 6.0 seconds), `process_chunk` emits two
segments, with end times `value(T0) = 2` and `value(T2) = 6` — not exactly
one segment ending at `value(T1) = 4`. -/
theorem pattern_T0_T1_T2_emits_two_segments :
    (process_chunk testEnv [50465, 5, 50565, 6, 50665] 0).length = 2 ∧
      (process_chunk testEnv [50465, 5, 50565, 6, 50665] 0).length ≠ 1 := by
  constructor <;> decide

/-- C2 amended: for every token id sequence of the exact shape
`[T0, x, T1, y, T2]` with `T0, T1, T2` timestamp tokens and `x, y` text
tokens, the decoder emits exactly two segments: the first closes at
`value(T0)` with the initial pending start `0.0`, and the second runs from
`value(T1)` (recorded as pending by the odd occurrence, which emits
nothing) to `value(T2)`. -/
theorem pattern_T0_T1_T2_segment_times (env : Env) (a x b y c : Nat) (temp : ℚ)
    (ha : env.timestampBegin ≤ a) (hx : x < env.timestampBegin)
    (hb : env.timestampBegin ≤ b) (hy : y < env.timestampBegin)
    (hc : env.timestampBegin ≤ c) :
    (process_chunk env [a, x, b, y, c] temp).map (fun sb => (sb.1.start, sb.1.stop))
      = [(0, env.timestampValue a), (env.timestampValue b, env.timestampValue c)] := by
  have hx2 : ¬ env.timestampBegin ≤ x := not_le.mpr hx
  have hy2 : ¬ env.timestampBegin ≤ y := not_le.mpr hy
  have hpos : timestampPositions env.timestampBegin [a, x, b, y, c] = [0, 2, 4] := by
    simp [timestampPositions, show List.range 5 = [0, 1, 2, 3, 4] from rfl,
      List.filter, ha, hb, hc, hx2, hy2]
  rw [process_chunk, hpos]
  simp only [List.isEmpty_cons, Bool.false_eq_true, if_false, List.map_map]
  have := segmentScan_map_times env [a, x, b, y, c] temp [0, 2, 4] 0 0 0
  rw [if_pos (show (0 : Nat) % 2 = 0 from rfl)] at this
  calc (segmentScan env [a, x, b, y, c] temp [0, 2, 4] 0 0 0).map
        ((fun sb => (sb.1.start, sb.1.stop)) ∘
          (fun s => (s, isSingleEndingTimestamp env.timestampBegin [a, x, b, y, c])))
      = (segmentScan env [a, x, b, y, c] temp [0, 2, 4] 0 0 0).map
          (fun s => (s.start, s.stop)) := by
        apply List.map_congr_left
        intro s _
        rfl
    _ = [(0, env.timestampValue a), (env.timestampValue b, env.timestampValue c)] := by
        rw [this]
        simp [claimSegmentTimes]

/-- C2 amended witness: the concrete pattern of the counterexample has
segment times `[(0, 2), (4, 6)]`. -/
theorem pattern_T0_T1_T2_segment_times_witness :
    50365 ≤ 50465 ∧ 5 < 50365 ∧
      (process_chunk testEnv [50465, 5, 50565, 6, 50665] 1).map
          (fun sb => (sb.1.start, sb.1.stop))
        = [(0, testEnv.timestampValue 50465),
           (testEnv.timestampValue 50565, testEnv.timestampValue 50665)] :=
  ⟨by decide, by decide,
    pattern_T0_T1_T2_segment_times testEnv 50465 5 50565 6 50665 1
      (by decide) (by decide) (by decide) (by decide) (by decide)⟩

/-- C3: the segment decoder, projected to (start, end) times, is exactly
the claimed state machine: no timestamp token means no segments, and
otherwise a segment is emitted at every even-indexed timestamp occurrence,
ending at that occurrence's decoded value and starting at the most recent
odd-indexed occurrence's value (`0.0` before any), both shifted by the
window time offset (offset `0` in the examples variant, whose caller
shifts afterwards). -/
theorem decoder_emission_characterization (env : Env) (ids : List Nat)
    (logprobs : List ℚ) (temp : ℚ) (segmentOffset : Nat) (timestampOffset : ℚ) :
    (process_chunk_v env ids logprobs temp segmentOffset timestampOffset).map
        (fun sb => (sb.1.start, sb.1.stop))
      = claimSegmentTimes timestampOffset 0
          ((timestampPositions env.timestampBegin ids).map
            (fun p => env.timestampValue (ids.getD p 0))) ∧
    (process_chunk env ids temp).map (fun sb => (sb.1.start, sb.1.stop))
      = claimSegmentTimes 0 0
          ((timestampPositions env.timestampBegin ids).map
            (fun p => env.timestampValue (ids.getD p 0))) := by
  constructor
  · rw [process_chunk_v]
    by_cases hemp : (timestampPositions env.timestampBegin ids).isEmpty
    · rw [if_pos hemp]
      rw [List.isEmpty_iff] at hemp
      simp [hemp, claimSegmentTimes]
    · rw [if_neg hemp, List.map_map]
      have := segmentScanV_map_times env ids logprobs temp segmentOffset timestampOffset
        (timestampPositions env.timestampBegin ids) 0 0 0
      rw [if_pos (show (0 : Nat) % 2 = 0 from rfl)] at this
      rw [← this]
      apply List.map_congr_left
      intro s _
      rfl
  · rw [process_chunk]
    by_cases hemp : (timestampPositions env.timestampBegin ids).isEmpty
    · rw [if_pos hemp]
      rw [List.isEmpty_iff] at hemp
      simp [hemp, claimSegmentTimes]
    · rw [if_neg hemp, List.map_map]
      have := segmentScan_map_times env ids temp
        (timestampPositions env.timestampBegin ids) 0 0 0
      rw [if_pos (show (0 : Nat) % 2 = 0 from rfl)] at this
      rw [← this]
      apply List.map_congr_left
      intro s _
      rfl

/-- C4: contrary to the claim, completed multi-window transcript ids are
not globally unique: `process_chunks` rebases by the running segment count
but `process_chunk` numbers a window's segments by the timestamp
occurrence index `t` (0, 2, 4, …), so a first window emitting two segments
(ids 0 and 2) followed by a one-segment window (id `2 + 0 = 2`) duplicates
id 2; the id list is neither unique nor strictly increasing. -/
theorem transcript_segment_ids_duplicate :
    ((process_chunks testEnv [[50415, 1, 50465, 2, 50515, 3, 50565], [50375]] 0).1).map
        (fun s => s.id) = [0, 2, 2] ∧
      ¬ (((process_chunks testEnv
            [[50415, 1, 50465, 2, 50515, 3, 50565], [50375]] 0).1).map
          (fun s => s.id)).Nodup ∧
      ¬ List.Pairwise (· < ·)
        (((process_chunks testEnv
            [[50415, 1, 50465, 2, 50515, 3, 50565], [50375]] 0).1).map
          (fun s => s.id)) := by
  refine ⟨by rfl, ?_, ?_⟩
  · rw [show ((process_chunks testEnv
        [[50415, 1, 50465, 2, 50515, 3, 50565], [50375]] 0).1).map
          (fun s => s.id) = [0, 2, 2] from rfl]
    decide
  · rw [show ((process_chunks testEnv
        [[50415, 1, 50465, 2, 50515, 3, 50565], [50375]] 0).1).map
          (fun s => s.id) = [0, 2, 2] from rfl]
    decide

/-- A step at which the loop observes the cancellation signal contributes
an engine cancel call carrying that step's request id. -/
lemma streamCancels_mem (sig : Nat → Bool) :
    ∀ (steps : List StreamStep) (start i : Nat) (h : i < steps.length),
      sig (start + i) = true →
        (steps.get ⟨i, h⟩).request_id ∈ streamCancels sig steps start := by
  intro steps
  induction steps with
  | nil =>
    intro start i h
    exact absurd h (by simp)
  | cons s rest ih =>
    intro start i h hsig
    cases i with
    | zero =>
      rw [Nat.add_zero] at hsig
      simp [streamCancels, hsig]
    | succ j =>
      have h2 : j < rest.length := by simpa using h
      have hsig2 : sig (start + 1 + j) = true := by
        rw [show start + 1 + j = start + (j + 1) by omega]
        exact hsig
      have tail := ih (start + 1) j h2 hsig2
      by_cases hc : sig start = true
      · simp only [streamCancels, if_pos hc]
        exact List.mem_cons_of_mem _ (by simpa using tail)
      · rw [streamCancels, if_neg hc]
        simpa using tail

/-- C5: if the cancellation signal is observed at any step of a stream
whose steps all answer the sub-request id `rid`, the loop of
`_handle_inference_stream` issues an engine cancel for `rid`; and with the
signal raised, `WhisperEndpoint.__call__` skips transcript assembly and
returns the no-content response. -/
theorem cancellation_cancels_and_returns_no_transcript
    (steps : List StreamStep) (sig : Nat → Bool) (rid : String) (fileLen : Nat)
    (hall : ∀ s ∈ steps, s.request_id = rid)
    (hobs : ∃ i, i < steps.length ∧ sig i = true)
    (hfile : fileLen ≠ 0) :
    rid ∈ streamCancels sig steps 0 ∧
      whisperCall fileLen true = some CallResult.noContent := by
  obtain ⟨i, h, hsig⟩ := hobs
  constructor
  · have hmem := streamCancels_mem sig steps 0 i h (by simpa using hsig)
    rwa [hall _ (List.get_mem steps i h)] at hmem
  · simp [whisperCall, hfile]

/-- C5 witness: a single-step stream for sub-request `req-0` with the
signal already raised yields a cancel call for `req-0`, and the call
returns no content. -/
theorem cancellation_cancels_and_returns_no_transcript_witness :
    "req-0" ∈ streamCancels (fun _ => true) [{ request_id := "req-0" }] 0 ∧
      whisperCall 1 true = some CallResult.noContent := by
  apply cancellation_cancels_and_returns_no_transcript
  · intro s hs
    rw [List.mem_singleton] at hs
    rw [hs]
  · exact ⟨0, by decide, rfl⟩
  · decide

/-- C6: publishing S1 then S2 then S3 with no subscriber draining leaves
`current()` equal to S3 and the capacity-1 broadcast buffer holding
exactly the most recent sample, so a subscriber starting afterwards
observes S3 (from `current`) and then S3 again (the buffered sample),
never S1 or S2. -/
theorem monitor_drop_oldest (st : MonitorState) (S1 S2 S3 : MonitoringStats)
    (h : st.queue.length ≤ 1) :
    (broadcast S3 (broadcast S2 (broadcast S1 st))).current = S3 ∧
      (broadcast S3 (broadcast S2 (broadcast S1 st))).queue = [S3] ∧
      recvObservations (broadcast S3 (broadcast S2 (broadcast S1 st))) = [S3, S3] := by
  have hq : ∀ (m : MonitoringStats) (s : MonitorState),
      (broadcast m s).queue = (if 1 ≤ s.queue.length then s.queue.dropLast else s.queue) ++ [m] :=
    fun _ _ => rfl
  have h1 : (broadcast S1 st).queue = [S1] := by
    rw [hq]
    cases hc : st.queue with
    | nil => simp
    | cons a tail =>
      have htail : tail = [] := by
        rw [hc] at h
        exact List.length_eq_zero.mp (by simpa using h)
      subst htail
      simp
  have h2 : (broadcast S2 (broadcast S1 st)).queue = [S2] := by
    rw [hq, h1]
    simp
  have h3 : (broadcast S3 (broadcast S2 (broadcast S1 st))).queue = [S3] := by
    rw [hq, h2]
    simp
  exact ⟨rfl, h3, by rw [recvObservations, h3]; rfl⟩

/-- C6 witness: from the freshly initialized monitor, three publishes
leave only the last sample visible. -/
theorem monitor_drop_oldest_witness :
    monitorInit.queue.length ≤ 1 ∧
      (broadcast ⟨7, 8, 9⟩ (broadcast ⟨4, 5, 6⟩ (broadcast ⟨1, 2, 3⟩ monitorInit))).current
        = ⟨7, 8, 9⟩ ∧
      (broadcast ⟨7, 8, 9⟩ (broadcast ⟨4, 5, 6⟩ (broadcast ⟨1, 2, 3⟩ monitorInit))).queue
        = [⟨7, 8, 9⟩] ∧
      recvObservations
          (broadcast ⟨7, 8, 9⟩ (broadcast ⟨4, 5, 6⟩ (broadcast ⟨1, 2, 3⟩ monitorInit)))
        = [⟨7, 8, 9⟩, ⟨7, 8, 9⟩] :=
  ⟨by decide, monitor_drop_oldest monitorInit ⟨1, 2, 3⟩ ⟨4, 5, 6⟩ ⟨7, 8, 9⟩ (by decide)⟩

/-- Every segment the catalog scan emits carries the same `avg_logprob`:
the whole-window mean. -/
lemma segmentScanV_map_avg (env : Env) (ids : List Nat) (lps : List ℚ) (temp : ℚ)
    (so : Nat) (toff : ℚ) :
    ∀ (ps : List Nat) (t : Nat) (pending : ℚ) (ss : Nat),
      (segmentScanV env ids lps temp so toff ps t pending ss).map (fun s => s.avg_logprob)
        = List.replicate (segmentScanV env ids lps temp so toff ps t pending ss).length
            (some (get_avg_logprob lps)) := by
  intro ps
  induction ps with
  | nil =>
    intro t pending ss
    simp [segmentScanV]
  | cons p rest ih =>
    intro t pending ss
    by_cases h : t % 2 = 0
    · simp [segmentScanV, h, ih, List.replicate_succ]
    · simp [segmentScanV, h, ih]

/-- C7: when logprobs are present, every segment emitted from a window by
the catalog decoder carries `avg_logprob` equal to the arithmetic mean of
the per-step log-probabilities over every decoding step of the whole
window (`get_avg_logprob` is always applied to the full list), so all
segments of one window share that value. -/
theorem avg_logprob_is_whole_window_mean (env : Env) (ids : List Nat)
    (logprobs : List ℚ) (temp : ℚ) (segmentOffset : Nat) (timestampOffset : ℚ)
    (h : logprobs ≠ []) :
    (process_chunk_v env ids logprobs temp segmentOffset timestampOffset).map
        (fun sb => sb.1.avg_logprob)
      = List.replicate
          (process_chunk_v env ids logprobs temp segmentOffset timestampOffset).length
          (some (logprobs.sum / (logprobs.length : ℚ))) := by
  rw [process_chunk_v]
  by_cases hemp : (timestampPositions env.timestampBegin ids).isEmpty
  · rw [if_pos hemp]
    simp
  · rw [if_neg hemp, List.map_map, List.length_map]
    have hscan := segmentScanV_map_avg env ids logprobs temp segmentOffset timestampOffset
      (timestampPositions env.timestampBegin ids) 0 0 0
    calc (segmentScanV env ids logprobs temp segmentOffset timestampOffset
            (timestampPositions env.timestampBegin ids) 0 0 0).map
          ((fun sb => sb.1.avg_logprob) ∘
            (fun s => (s, isSingleEndingTimestamp env.timestampBegin ids)))
        = (segmentScanV env ids logprobs temp segmentOffset timestampOffset
            (timestampPositions env.timestampBegin ids) 0 0 0).map
            (fun s => s.avg_logprob) := by
          apply List.map_congr_left
          intro s _
          rfl
      _ = _ := by rw [hscan]; rfl

/-- C7 witness: a one-timestamp window with logprobs `[-1/2, -1/4]`
yields a single segment whose `avg_logprob` is the whole-window mean
`-3/8`. -/
theorem avg_logprob_is_whole_window_mean_witness :
    ([(-1 : ℚ)/2, -1/4] ≠ []) ∧
      (process_chunk_v testEnv [50465] [(-1 : ℚ)/2, -1/4] 0 0 0).map
          (fun sb => sb.1.avg_logprob)
        = List.replicate (process_chunk_v testEnv [50465] [(-1 : ℚ)/2, -1/4] 0 0 0).length
            (some (List.sum [(-1 : ℚ)/2, -1/4] / ((List.length [(-1 : ℚ)/2, -1/4] : ℚ)))) :=
  ⟨by simp,
    avg_logprob_is_whole_window_mean testEnv [50465] [(-1 : ℚ)/2, -1/4] 0 0 0 (by simp)⟩

/-- C8: contrary to the claim, an empty audio file field does not produce
the no-content response: the `Response(204)` line sits inside the
`if len(request.file):` block, so `__call__` falls through and implicitly
returns Python `None` (the router then fails on `result.model_dump()`). -/
theorem empty_file_returns_none :
    whisperCall 0 false = none ∧ whisperCall 0 true = none ∧
      whisperCall 0 false ≠ some CallResult.noContent ∧
      whisperCall 0 true ≠ some CallResult.noContent := by
  refine ⟨rfl, rfl, ?_, ?_⟩ <;> decide

/-- C9: `compression_ratio` never divides by zero — the zlib stream always
contains its 2-byte header and 4-byte Adler-32 trailer, whatever the
DEFLATE payload — and on the empty text the numerator is 0, so the ratio
is exactly the sentinel 0. -/
theorem compression_ratio_total_and_zero_on_empty
    (deflate : List Nat → List Nat) (text : String) :
    (compression_ratio deflate text).isSome = true ∧
      compression_ratio deflate "" = some 0 := by
  constructor
  · rw [compression_ratio]
    have hlen : (zlibCompress deflate (utf8Bytes text)).length ≠ 0 := by
      simp [zlibCompress]
    simp [hlen]
  · rw [compression_ratio]
    have hemp : utf8Bytes "" = [] := rfl
    simp [hemp, zlibCompress]

/-- C10: for every window, sampling rate, window marker value and
verbosity flag, the prompt builder emits the fixed decoder preamble
`[50258, 50259, 50360, 50365]` — the timestamp anchor always encodes 0.00
and the window time offset never reaches the prompt — while the encoder
side carries the window unchanged. -/
theorem prompt_decoder_tokens_fixed (audio : List ℚ)
    (samplingRate timestampMarker : Nat) (isVerbose : Bool) :
    (create_prompt audio samplingRate timestampMarker isVerbose).decoderPromptTokenIds
        = [50258, 50259, 50360, 50365] ∧
      (create_prompt audio samplingRate timestampMarker isVerbose).encoderAudio = audio ∧
      (create_prompt audio samplingRate timestampMarker isVerbose).encoderSamplingRate
        = samplingRate :=
  ⟨rfl, rfl, rfl⟩

end HfEndpoint
